import Mathlib

/-!
Verification of the Taylor-Maccoll conical-flow notebook
(`src/supersonic-flow-past-a-cone.ipynb`).

The notebook's numerical code is embedded shallowly over `ℝ`:

* `InitialConditions` mirrors the Python class of the same name; its
  constructor converts the shock angle from degrees to radians.
* `setup` is the module-level configuration object
  `InitialConditions(3.0, 30, 1.4)`.
* The `ObliqueShock` namespace holds the arithmetic of
  `oblique_shock_wave` line by line (`mn1`, `rho2_rho1`, `pre2_pre1`,
  `mn2`, `delta`, `m2`).  The function in the source reads the
  module-level `setup`; here the configuration is passed explicitly.
* `obliqueShockRun` models the actual execution of the function: the
  statement `tem2_tesetup.m1 = pre2_pre1/rho2_rho1` looks up the global
  name `tem2_tesetup`, which is defined nowhere in the notebook, so
  every call raises a NameError before `delta` or `m2` is computed.
* The `TaylorMaccoll` namespace holds the arithmetic of
  `taylor_maccoll` (`v_nondim`, `v_nondim_r`, `v_nondim_theta`, the
  second and third output slots), and `taylor_maccollRun` models its
  execution (it calls `oblique_shock_wave()` first, so it inherits the
  same NameError; its own body also reads an undefined global `gamma`
  and stores into index 2 of a 2-element array).
* `rk4` embeds the single Runge-Kutta step, generic over the state
  space, exactly as the source computes it: it returns the weighted
  increment `(k1 + 2 k2 + 2 k3 + k4)/6`, not `y` plus that increment.
  (In the notebook the cell holding `rk4` starts with the ill-formed
  line `y = np.zeros(100):` and the derivative `f` is a global name
  that is never defined; `f` is a parameter here.)
* `central_differences` embeds the finite-difference helper; the free
  global index `i` of the source is a parameter, the array `y` a
  function `ℤ → ℝ`, and `np.finfo(float).eps` is `machineEps = 2⁻⁵²`.
* `Globals` / `oblique_shock_wave_global` model the module-level state
  the shock routine touches: it reads the global `setup` (it takes no
  arguments in the source) and stores its two outputs into the shared
  module-level buffer `ob`, which it returns.
-/

/-- Mirrors the Python class `InitialConditions`: free-stream Mach
number `m1`, shock-wave angle `beta` (stored in radians), and the
specific-heat ratio `gamma`. -/
structure InitialConditions where
  m1 : ℝ
  beta : ℝ
  gamma : ℝ

/-- The constructor `InitialConditions.__init__`: the shock angle is
given in degrees and stored as `beta*np.pi/180`. -/
noncomputable def InitialConditions.make (m1 beta gamma : ℝ) : InitialConditions :=
  ⟨m1, beta * Real.pi / 180, gamma⟩

/-- The module-level configuration `setup = InitialConditions(3.0,30,1.4)`. -/
noncomputable def setup : InitialConditions := InitialConditions.make 3.0 30 1.4

/-- The runtime errors the notebook's routines can raise: looking up an
undefined global name, or indexing a numpy array out of bounds. -/
inductive PyErr where
  | nameError (n : String)
  | indexError
  deriving DecidableEq

namespace ObliqueShock

/-- `mn1 = setup.m1*np.sin(setup.beta)`. -/
noncomputable def mn1 (cfg : InitialConditions) : ℝ :=
  cfg.m1 * Real.sin cfg.beta

/-- `rho2_rho1 = ((setup.gamma + 1)*mn1**2)/(2 + (setup.gamma - 1)*mn1**2)`. -/
noncomputable def rho2_rho1 (cfg : InitialConditions) : ℝ :=
  ((cfg.gamma + 1) * mn1 cfg ^ 2) / (2 + (cfg.gamma - 1) * mn1 cfg ^ 2)

/-- `pre2_pre1 = 1.0 + 2*setup.gamma/(setup.gamma + 1)*(mn1**2 - 1)`. -/
noncomputable def pre2_pre1 (cfg : InitialConditions) : ℝ :=
  1.0 + 2 * cfg.gamma / (cfg.gamma + 1) * (mn1 cfg ^ 2 - 1)

/-- `mn2 = np.sqrt((1.0 + 0.5*(setup.gamma - 1)*mn1**2)/(setup.gamma*mn1**2 - 0.5*(setup.gamma - 1)))`. -/
noncomputable def mn2 (cfg : InitialConditions) : ℝ :=
  Real.sqrt ((1.0 + 0.5 * (cfg.gamma - 1) * mn1 cfg ^ 2) /
    (cfg.gamma * mn1 cfg ^ 2 - 0.5 * (cfg.gamma - 1)))

/-- `delta = np.arctan(2*1/np.tan(setup.beta)*(mn1**2-1)/(setup.m1**2*(setup.gamma+np.cos(2*setup.beta)+2)))`.
Note the grouping in the source: the whole factor `γ + cos 2β + 2` is
multiplied by `m1**2`. -/
noncomputable def delta (cfg : InitialConditions) : ℝ :=
  Real.arctan (2 * 1 / Real.tan cfg.beta * (mn1 cfg ^ 2 - 1) /
    (cfg.m1 ^ 2 * (cfg.gamma + Real.cos (2 * cfg.beta) + 2)))

/-- `m2 = mn2/np.sin(setup.beta-delta)`. -/
noncomputable def m2 (cfg : InitialConditions) : ℝ :=
  mn2 cfg / Real.sin (cfg.beta - delta cfg)

end ObliqueShock

/-- Execution of `oblique_shock_wave()` with the module-level `setup`
bound to `cfg`.  After `mn1`, `rho2_rho1` and `pre2_pre1` are computed,
the statement `tem2_tesetup.m1 = pre2_pre1/rho2_rho1` evaluates the
global name `tem2_tesetup`; the notebook never defines it, so the call
raises `NameError` there and the remaining statements (`mn2`, `delta`,
`m2` and the stores `ob[0] = delta`, `ob[1] = m2`) are never reached. -/
noncomputable def obliqueShockRun (cfg : InitialConditions) : Except PyErr (ℝ × ℝ) :=
  let _mn1 := ObliqueShock.mn1 cfg
  let _rho2_rho1 := ObliqueShock.rho2_rho1 cfg
  let _pre2_pre1 := ObliqueShock.pre2_pre1 cfg
  Except.error (PyErr.nameError "tem2_tesetup")

namespace TaylorMaccoll

/-- `v_nondim = 1.0/np.sqrt(2.0/(setup.gamma-1)/m2**2+1.0)`. -/
noncomputable def v_nondim (cfg : InitialConditions) (m2 : ℝ) : ℝ :=
  1.0 / Real.sqrt (2.0 / (cfg.gamma - 1) / m2 ^ 2 + 1.0)

/-- `v_nondim_r = v_nondim*np.sqrt(1.0/(1.0+np.tan(setup.beta-delta)**2))`. -/
noncomputable def v_nondim_r (cfg : InitialConditions) (delta m2 : ℝ) : ℝ :=
  v_nondim cfg m2 * Real.sqrt (1.0 / (1.0 + Real.tan (cfg.beta - delta) ^ 2))

/-- `v_nondim_theta = v_nondim_r*np.tan(setup.beta-delta)`. -/
noncomputable def v_nondim_theta (cfg : InitialConditions) (delta m2 : ℝ) : ℝ :=
  v_nondim_r cfg delta m2 * Real.tan (cfg.beta - delta)

/-- The second output slot, `tm[1] = v_nondim_theta`. -/
noncomputable def tm1 (cfg : InitialConditions) (delta m2 : ℝ) : ℝ :=
  v_nondim_theta cfg delta m2

/-- The third output slot of `taylor_maccoll`,
`tm[2] = (0.5*(gamma-1)*(1-v_nondim**2)*(2*v_nondim_r+v_nondim_theta/np.tan(delta))-
v_nondim_r*v_nondim_theta**2)/(v_nondim_theta**2 + 0.5*(gamma-1)*(v_nondim**2-1))`.
The source references the bare global name `gamma`, which the notebook
never defines (only `setup.gamma` exists); it is modelled here as
`cfg.gamma`, the configuration's specific-heat ratio.  The execution
model `taylor_maccollRun` records the NameError this lookup would
raise. -/
noncomputable def tm2 (cfg : InitialConditions) (delta m2 : ℝ) : ℝ :=
  (0.5 * (cfg.gamma - 1) * (1 - v_nondim cfg m2 ^ 2) *
      (2 * v_nondim_r cfg delta m2 + v_nondim_theta cfg delta m2 / Real.tan delta) -
    v_nondim_r cfg delta m2 * v_nondim_theta cfg delta m2 ^ 2) /
  (v_nondim_theta cfg delta m2 ^ 2 + 0.5 * (cfg.gamma - 1) * (v_nondim cfg m2 ^ 2 - 1))

/-- The denominator of `tm[2]`:
`v_nondim_theta**2 + 0.5*(gamma-1)*(v_nondim**2-1)` (the Taylor-Maccoll
"limit line" expression), with the undefined global `gamma` read as
`cfg.gamma` as in `tm2`. -/
noncomputable def denom (cfg : InitialConditions) (delta m2 : ℝ) : ℝ :=
  v_nondim_theta cfg delta m2 ^ 2 + 0.5 * (cfg.gamma - 1) * (v_nondim cfg m2 ^ 2 - 1)

end TaylorMaccoll

/-- Execution of `taylor_maccoll(delta, m2)` with the module-level
`setup` bound to `cfg`.  Its first statement calls
`oblique_shock_wave()`, which raises `NameError: tem2_tesetup`
(see `obliqueShockRun`), so every call fails there.  Were that repaired,
the body would allocate `tm = np.zeros(2)`, compute the velocity
components, store `tm[0]` and `tm[1]`, and then evaluate the right-hand
side of the `tm[2]` assignment, whose first undefined lookup is the
bare global `gamma` — a further NameError raised before the
out-of-bounds store into index 2 of the 2-element `tm`. -/
noncomputable def taylorMaccollRun (cfg : InitialConditions) (delta m2 : ℝ) :
    Except PyErr (Fin 2 → ℝ) := do
  let ob_array ← obliqueShockRun cfg
  let _tm0 := ob_array.1
  let _v := TaylorMaccoll.v_nondim cfg m2
  let _vr := TaylorMaccoll.v_nondim_r cfg delta m2
  let _vt := TaylorMaccoll.v_nondim_theta cfg delta m2
  Except.error (PyErr.nameError "gamma")

/-- One step of the 4th-order Runge-Kutta cell, generic over the state
space (numpy arrays add componentwise and scale by floats):
```
k1 = dx * f(x,y)
k2 = dx * f(x + 0.5*dx, y + 0.5*k1)
k3 = dx * f(x + 0.5*dx, y + 0.5*k2)
k4 = dx * f(x + 1.0*dx, y + 1.0*k3)
return (k1 + 2*k2 + 2*k3 + k4)/6.0
```
The source returns this weighted increment itself — it does not add `y`
and it does not advance `x`.  In the notebook the derivative `f` is a
free global name (never defined); it is a parameter here, and the
cell's stray first line `y = np.zeros(100):` is not valid Python. -/
noncomputable def rk4 {V : Type} [AddCommGroup V] [Module ℝ V]
    (f : ℝ → V → V) (dx x : ℝ) (y : V) : V :=
  let k1 := dx • f x y
  let k2 := dx • f (x + 0.5 * dx) (y + (0.5 : ℝ) • k1)
  let k3 := dx • f (x + 0.5 * dx) (y + (0.5 : ℝ) • k2)
  let k4 := dx • f (x + 1.0 * dx) (y + (1.0 : ℝ) • k3)
  ((6.0 : ℝ)⁻¹) • (k1 + (2 : ℝ) • k2 + (2 : ℝ) • k3 + k4)

/-- `np.finfo(float).eps`, the double-precision machine epsilon 2⁻⁵². -/
noncomputable def machineEps : ℝ := 1 / 2 ^ 52

/-- The helper in the Newton-Raphson cell:
```
def central_differences(x,y):
    eps = np.sqrt(np.finfo(float).eps)
    dydx = (y[i+1] - 2*y[i] + y[i-1])/eps**2
    return dydx
```
The array `y` is modelled as `ℤ → ℝ` and the free global index `i` as a
parameter; `x` is unused by the body.  (The cell also holds the
`newton_raphson` routine, which mixes Fortran and Python and is not
runnable; this helper's own text is well formed.) -/
noncomputable def central_differences (x : ℝ) (y : ℤ → ℝ) (i : ℤ) : ℝ :=
  let eps := Real.sqrt machineEps
  (y (i + 1) - 2 * y i + y (i - 1)) / eps ^ 2

/-- The module-level state `oblique_shock_wave` touches: the global
configuration object `setup` and the shared output buffer
`ob = np.zeros(2)` defined next to it. -/
structure Globals where
  setup : InitialConditions
  ob : ℝ × ℝ

/-- The shock routine as a transformer of the module-level state, at
the level of its defining formulas: it takes no arguments, reads the
global `setup`, stores `ob[0] = delta` and `ob[1] = m2` into the shared
module-level buffer, and returns that buffer.  (As executed the routine
raises `NameError: tem2_tesetup` before these stores; see
`obliqueShockRun`.) -/
noncomputable def oblique_shock_wave_global (g : Globals) : Globals × (ℝ × ℝ) :=
  let d := ObliqueShock.delta g.setup
  let m := ObliqueShock.m2 g.setup
  ({ g with ob := (d, m) }, (d, m))

/-- Modelled from the spec: the right-hand side of the Taylor-Maccoll
equation for `d(tangentialVelocity)/d(theta)` as §4.2 states it, as a
function of the state components, with `v² = Vr² + Vθ²`:
`[0.5(γ−1)(1−v²)(2·Vr + Vθ·cot θ) − Vr·Vθ²] / [Vθ² + 0.5(γ−1)(v²−1)]`. -/
noncomputable def specTangentialDeriv (gamma theta vr vt : ℝ) : ℝ :=
  (0.5 * (gamma - 1) * (1 - (vr ^ 2 + vt ^ 2)) * (2 * vr + vt * Real.cot theta) -
    vr * vt ^ 2) /
  (vt ^ 2 + 0.5 * (gamma - 1) * ((vr ^ 2 + vt ^ 2) - 1))

/- Basic facts about the concrete configuration. -/

lemma setup_m1 : setup.m1 = 3 := by norm_num [setup, InitialConditions.make]

lemma setup_gamma : setup.gamma = 1.4 := rfl

lemma setup_beta : setup.beta = Real.pi / 6 := by
  show (30 : ℝ) * Real.pi / 180 = Real.pi / 6
  ring

/- Helper lemmas: run-level evaluation and elementary numeric bounds. -/

lemma obliqueShockRun_eq (cfg : InitialConditions) :
    obliqueShockRun cfg = Except.error (PyErr.nameError "tem2_tesetup") := rfl

lemma taylorMaccollRun_eq (cfg : InitialConditions) (delta m2 : ℝ) :
    taylorMaccollRun cfg delta m2 = Except.error (PyErr.nameError "tem2_tesetup") := rfl

lemma sqrt3_gt : (1.7320 : ℝ) < Real.sqrt 3 := by
  rw [Real.lt_sqrt (by norm_num)]
  norm_num

lemma sqrt3_lt : Real.sqrt 3 < (1.7321 : ℝ) := by
  rw [Real.sqrt_lt' (by norm_num)]
  norm_num

/-- For nonnegative arguments the arctangent lies below its argument. -/
lemma arctan_le_self {x : ℝ} (hx : 0 ≤ x) : Real.arctan x ≤ x := by
  have hmono : Monotone fun t : ℝ => t - Real.arctan t := by
    apply monotone_of_deriv_nonneg
    · exact differentiable_id.sub Real.differentiable_arctan
    · intro t
      have h1 : HasDerivAt (fun s : ℝ => s - Real.arctan s) (1 - 1 / (1 + t ^ 2)) t :=
        (hasDerivAt_id t).sub (Real.hasDerivAt_arctan t)
      rw [h1.deriv]
      have h2 : (0 : ℝ) < 1 + t ^ 2 := by positivity
      rw [sub_nonneg, div_le_one h2]
      nlinarith [sq_nonneg t]
  have h0 : (0 : ℝ) - Real.arctan 0 ≤ x - Real.arctan x := hmono hx
  simp only [Real.arctan_zero, sub_zero] at h0
  linarith

/-- For nonnegative arguments the arctangent lies above the cubic
truncation of its Taylor series. -/
lemma sub_cube_le_arctan {x : ℝ} (hx : 0 ≤ x) : x - x ^ 3 / 3 ≤ Real.arctan x := by
  have hmono : Monotone fun t : ℝ => Real.arctan t - (t - t ^ 3 / 3) := by
    apply monotone_of_deriv_nonneg
    · apply Real.differentiable_arctan.sub
      apply differentiable_id.sub
      exact (differentiable_pow 3).div_const 3
    · intro t
      have hcube : HasDerivAt (fun s : ℝ => s - s ^ 3 / 3) (1 - t ^ 2) t := by
        have hp : HasDerivAt (fun s : ℝ => s ^ 3 / 3) (t ^ 2) t := by
          have := (hasDerivAt_pow 3 t).div_const 3
          convert this using 1
          push_cast
          ring
        simpa using (hasDerivAt_id t).sub hp
      have h1 : HasDerivAt (fun s : ℝ => Real.arctan s - (s - s ^ 3 / 3))
          (1 / (1 + t ^ 2) - (1 - t ^ 2)) t :=
        (Real.hasDerivAt_arctan t).sub hcube
      rw [h1.deriv]
      have h2 : (0 : ℝ) < 1 + t ^ 2 := by positivity
      have h3 : (1 : ℝ) / (1 + t ^ 2) - (1 - t ^ 2) = t ^ 4 / (1 + t ^ 2) := by
        field_simp
        ring
      rw [h3]
      positivity
  have h0 : Real.arctan 0 - ((0 : ℝ) - 0 ^ 3 / 3) ≤ Real.arctan x - (x - x ^ 3 / 3) :=
    hmono hx
  simp only [Real.arctan_zero] at h0
  nlinarith [h0]

/- Numeric evaluation of the oblique-shock formulas at the concrete
configuration `setup` (freeStreamMach 3, shock angle 30°, γ = 1.4). -/

lemma pi_div_six_gt : (0.5235986 : ℝ) < Real.pi / 6 := by
  have h := Real.pi_gt_3141592
  linarith

lemma pi_div_six_lt : Real.pi / 6 < (0.5235989 : ℝ) := by
  have h := Real.pi_lt_3141593
  linarith

lemma mn1_setup : ObliqueShock.mn1 setup = 3 / 2 := by
  rw [ObliqueShock.mn1, setup_m1, setup_beta, Real.sin_pi_div_six]
  norm_num

lemma tan_setup_beta : Real.tan setup.beta = Real.sqrt 3 / 3 := by
  rw [setup_beta, Real.tan_eq_sin_div_cos, Real.sin_pi_div_six, Real.cos_pi_div_six]
  have hne : Real.sqrt 3 ≠ 0 := by positivity
  field_simp

lemma cos_two_setup_beta : Real.cos (2 * setup.beta) = 1 / 2 := by
  rw [setup_beta, show 2 * (Real.pi / 6) = Real.pi / 3 by ring, Real.cos_pi_div_three]

lemma delta_setup : ObliqueShock.delta setup = Real.arctan (25 * Real.sqrt 3 / 351) := by
  rw [ObliqueShock.delta, mn1_setup, setup_m1, setup_gamma, tan_setup_beta,
    cos_two_setup_beta]
  congr 1
  have h3 : Real.sqrt 3 ≠ 0 := by positivity
  have hsq : Real.sqrt 3 * Real.sqrt 3 = 3 := Real.mul_self_sqrt (by norm_num)
  field_simp
  ring_nf
  nlinarith [hsq]

lemma arg_gt : (0.123361 : ℝ) < 25 * Real.sqrt 3 / 351 := by
  nlinarith [sqrt3_gt]

lemma arg_lt : 25 * Real.sqrt 3 / 351 < (0.123369 : ℝ) := by
  nlinarith [sqrt3_lt]

lemma delta_setup_gt : (0.12273 : ℝ) < ObliqueShock.delta setup := by
  rw [delta_setup]
  have hx0 : (0 : ℝ) ≤ 25 * Real.sqrt 3 / 351 := by positivity
  have hlow := sub_cube_le_arctan hx0
  have hcube : (25 * Real.sqrt 3 / 351) ^ 3 < (0.123369 : ℝ) ^ 3 :=
    pow_lt_pow_left arg_lt hx0 (by norm_num)
  nlinarith [arg_gt, hlow, hcube]

lemma delta_setup_lt : ObliqueShock.delta setup < (0.123369 : ℝ) := by
  rw [delta_setup]
  have hx0 : (0 : ℝ) ≤ 25 * Real.sqrt 3 / 351 := by positivity
  have := arctan_le_self hx0
  linarith [arg_lt]

lemma sin_bd_gt : (0.3841 : ℝ) < Real.sin (setup.beta - ObliqueShock.delta setup) := by
  have hb := setup_beta
  have ht_lo : (0.4002296 : ℝ) < setup.beta - ObliqueShock.delta setup := by
    rw [hb]; linarith [pi_div_six_gt, delta_setup_lt]
  have ht_hi : setup.beta - ObliqueShock.delta setup < (0.4008689 : ℝ) := by
    rw [hb]; linarith [pi_div_six_lt, delta_setup_gt]
  have h0 : (0 : ℝ) < setup.beta - ObliqueShock.delta setup := by linarith
  have h1 : setup.beta - ObliqueShock.delta setup ≤ 1 := by linarith
  have hcube : (setup.beta - ObliqueShock.delta setup) ^ 3 < (0.4008689 : ℝ) ^ 3 :=
    pow_lt_pow_left ht_hi (le_of_lt h0) (by norm_num)
  have hmain := Real.sin_gt_sub_cube h0 h1
  nlinarith [hmain, hcube, ht_lo]

lemma sin_bd_lt : Real.sin (setup.beta - ObliqueShock.delta setup) < (0.40087 : ℝ) := by
  have ht_hi : setup.beta - ObliqueShock.delta setup < (0.4008689 : ℝ) := by
    rw [setup_beta]; linarith [pi_div_six_lt, delta_setup_gt]
  have h0 : (0 : ℝ) < setup.beta - ObliqueShock.delta setup := by
    rw [setup_beta]; linarith [pi_div_six_gt, delta_setup_lt]
  have := Real.sin_lt h0
  linarith

lemma mn2_setup : ObliqueShock.mn2 setup = Real.sqrt (29 / 59) := by
  rw [ObliqueShock.mn2, mn1_setup, setup_gamma]
  norm_num

lemma mn2_setup_gt : (0.70108 : ℝ) < ObliqueShock.mn2 setup := by
  rw [mn2_setup, Real.lt_sqrt (by norm_num)]
  norm_num

lemma mn2_setup_lt : ObliqueShock.mn2 setup < (0.70109 : ℝ) := by
  rw [mn2_setup, Real.sqrt_lt' (by norm_num)]
  norm_num

lemma m2_setup_gt : (1.748 : ℝ) < ObliqueShock.m2 setup := by
  rw [ObliqueShock.m2, lt_div_iff (by linarith [sin_bd_gt])]
  nlinarith [sin_bd_lt, mn2_setup_gt]

lemma m2_setup_lt : ObliqueShock.m2 setup < (1.8253 : ℝ) := by
  rw [ObliqueShock.m2, div_lt_iff (by linarith [sin_bd_gt])]
  nlinarith [sin_bd_gt, mn2_setup_lt]

/- Shared structural lemmas for the Taylor-Maccoll field. -/

/-- The squared speed identity: the radial and tangential components the
evaluator derives satisfy `Vr² + Vθ² = v_nondim²`. -/
lemma vr_sq_add_vtheta_sq (cfg : InitialConditions) (delta m2 : ℝ) :
    TaylorMaccoll.v_nondim_r cfg delta m2 ^ 2 + TaylorMaccoll.v_nondim_theta cfg delta m2 ^ 2 =
      TaylorMaccoll.v_nondim cfg m2 ^ 2 := by
  have h1 : (0:ℝ) < 1.0 + Real.tan (cfg.beta - delta) ^ 2 := by positivity
  simp only [TaylorMaccoll.v_nondim_theta, TaylorMaccoll.v_nondim_r]
  have hmain : Real.sqrt (1.0 / (1.0 + Real.tan (cfg.beta - delta) ^ 2)) ^ 2 *
      (1.0 + Real.tan (cfg.beta - delta) ^ 2) = 1 := by
    rw [Real.sq_sqrt (by positivity : (0:ℝ) ≤ 1.0 / (1.0 + Real.tan (cfg.beta - delta) ^ 2))]
    field_simp
    norm_num
  linear_combination (TaylorMaccoll.v_nondim cfg m2 ^ 2) * hmain

/-- In the real junk-value semantics, `a / tan x = a * cot x` holds for
every `x` (both sides read `cos x / sin x` cleared of the division). -/
lemma div_tan_eq_mul_cot (a x : ℝ) : a / Real.tan x = a * Real.cot x := by
  rw [Real.tan_eq_sin_div_cos, Real.cot_eq_cos_div_sin, div_div_eq_mul_div, mul_div_assoc]

/-- The non-dimensional speed computed from the post-shock Mach number
never exceeds 1 (for a physical specific-heat ratio). -/
lemma v_nondim_sq_le_one (cfg : InitialConditions) (m2 : ℝ) (hg : 1 < cfg.gamma) :
    TaylorMaccoll.v_nondim cfg m2 ^ 2 ≤ 1 := by
  rw [TaylorMaccoll.v_nondim]
  have h1 : (0:ℝ) ≤ 2.0 / (cfg.gamma - 1) :=
    div_nonneg (by norm_num) (by linarith)
  have h2 : (0:ℝ) ≤ 2.0 / (cfg.gamma - 1) / m2 ^ 2 := div_nonneg h1 (sq_nonneg m2)
  have hX : (1:ℝ) ≤ 2.0 / (cfg.gamma - 1) / m2 ^ 2 + 1.0 := by linarith
  rw [div_pow, Real.sq_sqrt (by linarith : (0:ℝ) ≤ 2.0 / (cfg.gamma - 1) / m2 ^ 2 + 1.0)]
  rw [div_le_one (by linarith)]
  nlinarith [hX]

/- Claim C2: the Taylor-Maccoll derivative formulas. -/

/-- C2: the evaluator's output slots match the Taylor-Maccoll equations as
the specification states them: slot 1 (the θ-derivative of the radial
component) is the tangential component itself, and slot 2 (the
θ-derivative of the tangential component) equals
`[0.5(γ−1)(1−v²)(2·Vr + Vθ·cot θ) − Vr·Vθ²] / [Vθ² + 0.5(γ−1)(v²−1)]`
with `v² = Vr² + Vθ²`, where θ is the evaluator's angle argument
`delta` and `Vr`, `Vθ` are the components it derives from `(delta, m2)`.
The identity holds for every input (both sides collapse to the same
expression, singular points included in the junk-value semantics). -/
theorem c2_field_matches_spec (cfg : InitialConditions) (delta m2 : ℝ) :
    TaylorMaccoll.tm1 cfg delta m2 = TaylorMaccoll.v_nondim_theta cfg delta m2 ∧
      TaylorMaccoll.tm2 cfg delta m2 =
        specTangentialDeriv cfg.gamma delta (TaylorMaccoll.v_nondim_r cfg delta m2)
          (TaylorMaccoll.v_nondim_theta cfg delta m2) := by
  refine ⟨rfl, ?_⟩
  rw [TaylorMaccoll.tm2, specTangentialDeriv, vr_sq_add_vtheta_sq,
    div_tan_eq_mul_cot (TaylorMaccoll.v_nondim_theta cfg delta m2) delta]

/- Claim C1: the concrete 30°-shock scenario. -/

/-- C1 (counterexample): at `freeStreamMach = 3`, `shockAngle = 30°`,
`γ = 1.4`, the post-shock Mach number produced by the solver's formulas
is below 1.83, hence not within 0.2 of the claimed 2.255. -/
theorem c1_counterexample : ¬ |ObliqueShock.m2 setup - 2.255| < 1 / 5 := by
  intro h
  rw [abs_lt] at h
  linarith [m2_setup_lt, h.1]

/-- C1 (amended): at the concrete configuration the solver's formulas give
`flowDeflectionAngle ≈ 0.123 rad` (within 0.001) but
`postShockMach ≈ 1.79` (within 0.05), not 2.255.  (As executed, the
routine raises a NameError before returning; see `obliqueShockRun`.) -/
theorem c1_amended_values :
    |ObliqueShock.delta setup - 0.123| < 0.001 ∧ |ObliqueShock.m2 setup - 1.79| < 0.05 := by
  constructor
  · rw [abs_lt]
    constructor <;> linarith [delta_setup_gt, delta_setup_lt]
  · rw [abs_lt]
    constructor <;> linarith [m2_setup_gt, m2_setup_lt]

/- Claim C4: the Runge-Kutta step. -/

/-- C4 (counterexample): with the constant field `f ≡ 1` on `ℝ`, step
`dx = 1` from `(x, y) = (0, 1)`, all four stages equal 1, so the claimed
next state is `y + (k1+2k2+2k3+k4)/6 = 2`; `rk4` returns 1 (the weighted
increment alone), so it does not return the claimed next state. -/
theorem c4_counterexample :
    rk4 (fun _ _ => (1 : ℝ)) 1 0 1 ≠ 1 + (1 + 2 * 1 + 2 * 1 + 1) / 6 := by
  norm_num [rk4]

/-- C4 (amended): each call computes the four classical stages
`k1 = dx·f(x,y)`, `k2 = dx·f(x+dx/2, y+k1/2)`, `k3 = dx·f(x+dx/2, y+k2/2)`,
`k4 = dx·f(x+dx, y+k3)` and returns the weighted increment
`(k1 + 2k2 + 2k3 + k4)/6` — the caller must add it to `y`; no updated
independent variable is produced. -/
theorem c4_rk4_increment {V : Type} [AddCommGroup V] [Module ℝ V]
    (f : ℝ → V → V) (dx x : ℝ) (y : V) (k1 k2 k3 k4 : V)
    (h1 : k1 = dx • f x y)
    (h2 : k2 = dx • f (x + dx / 2) (y + ((1:ℝ)/2) • k1))
    (h3 : k3 = dx • f (x + dx / 2) (y + ((1:ℝ)/2) • k2))
    (h4 : k4 = dx • f (x + dx) (y + k3)) :
    rk4 f dx x y = ((1:ℝ)/6) • (k1 + (2:ℝ) • k2 + (2:ℝ) • k3 + k4) := by
  subst h1 h2 h3 h4
  have e1 : x + 0.5 * dx = x + dx / 2 := by ring
  have e3 : ((0.5 : ℝ)) = 1/2 := by norm_num
  have e4 : ((1.0 : ℝ)) = 1 := by norm_num
  have e5 : ((6.0 : ℝ))⁻¹ = 1/6 := by norm_num
  have e6 : (1:ℝ)/2 * dx = dx / 2 := by ring
  simp only [rk4, e1, e3, e4, e5, e6, one_smul, one_mul]

theorem c4_witness :
    rk4 (fun _ _ => (1 : ℝ)) 1 0 1 =
      ((1:ℝ)/6) • ((1:ℝ) + (2:ℝ) • (1:ℝ) + (2:ℝ) • (1:ℝ) + 1) :=
  c4_rk4_increment (fun _ _ => (1 : ℝ)) 1 0 1 1 1 1 1
    (by norm_num) (by norm_num) (by norm_num) (by norm_num)

/- Claim C6: entry validation of the oblique-shock solver. -/

/-- C6 (counterexample): at the valid configuration `setup`
(`machNormal1 = 3·sin 30° = 1.5 > 1`) the solver does not return a
result: every call fails with `NameError: tem2_tesetup`. -/
theorem c6_counterexample :
    (1 : ℝ) < ObliqueShock.mn1 setup ∧
      obliqueShockRun setup = Except.error (PyErr.nameError "tem2_tesetup") := by
  refine ⟨?_, rfl⟩
  rw [mn1_setup]
  norm_num

/-- C6 (amended): the solver performs no entry validation at all — it
never raises an invalid-configuration error for `machNormal1 ≤ 1`
(the jump formulas are evaluated unguarded), and as written every call,
for every configuration valid or not, fails with the same undefined-name
error. -/
theorem c6_no_validation (cfg : InitialConditions) :
    obliqueShockRun cfg = Except.error (PyErr.nameError "tem2_tesetup") :=
  obliqueShockRun_eq cfg

/- Claim C5: singularity handling at the limit line. -/

/-- At `(delta, m2) = (setup.beta, 100000)` the tangential component is
exactly zero (the resolution angle is `β − β = 0`) and the limit-line
denominator is exactly `−1/(10¹⁰ + 5)`, within the 1e−10 tolerance. -/
lemma denom_at_near_singular :
    |TaylorMaccoll.denom setup setup.beta 100000| < 1 / 10 ^ 10 := by
  have hvt : TaylorMaccoll.v_nondim_theta setup setup.beta 100000 = 0 := by
    rw [TaylorMaccoll.v_nondim_theta, sub_self, Real.tan_zero, mul_zero]
  have hv2 : TaylorMaccoll.v_nondim setup (100000 : ℝ) ^ 2 = 10 ^ 10 / (10 ^ 10 + 5) := by
    rw [TaylorMaccoll.v_nondim]
    have harg : (2.0 / (setup.gamma - 1) / (100000 : ℝ) ^ 2 + 1.0) = (10 ^ 10 + 5) / 10 ^ 10 := by
      rw [setup_gamma]
      norm_num
    rw [harg, div_pow, Real.sq_sqrt (by positivity : (0:ℝ) ≤ ((10:ℝ) ^ 10 + 5) / 10 ^ 10)]
    norm_num
  rw [TaylorMaccoll.denom, hvt, hv2, setup_gamma]
  have hval : (0:ℝ) ^ 2 + 0.5 * (1.4 - 1) * ((10:ℝ) ^ 10 / (10 ^ 10 + 5) - 1) =
      -(1 / (10 ^ 10 + 5)) := by
    norm_num
  rw [hval, abs_neg, abs_of_nonneg (by positivity)]
  norm_num

/-- C5 (counterexample): a state whose limit-line denominator is below
the 1e−10 tolerance on which the field evaluator does not fail with a
singularity error — it fails with the same undefined-name error as every
other call (and the `rk4` routine has no error channel at all). -/
theorem c5_counterexample :
    |TaylorMaccoll.denom setup setup.beta 100000| < 1 / 10 ^ 10 ∧
      taylorMaccollRun setup setup.beta 100000 =
        Except.error (PyErr.nameError "tem2_tesetup") :=
  ⟨denom_at_near_singular, rfl⟩

/-- C5 (amended): the evaluator applies no tolerance test to the
denominator: whenever `|denominator| < 1e−10` the call fails with the
same `NameError: tem2_tesetup` it raises on every input — there is no
singularity error, and no annotated propagation through the integrator
(whose `rk4` step computes a plain increment with no error channel). -/
theorem c5_no_singularity_error (cfg : InitialConditions) (delta m2 : ℝ)
    (h : |TaylorMaccoll.denom cfg delta m2| < 1 / 10 ^ 10) :
    taylorMaccollRun cfg delta m2 = Except.error (PyErr.nameError "tem2_tesetup") :=
  taylorMaccollRun_eq cfg delta m2

theorem c5_witness :
    |TaylorMaccoll.denom setup setup.beta 100000| < 1 / 10 ^ 10 ∧
      taylorMaccollRun setup setup.beta 100000 =
        Except.error (PyErr.nameError "tem2_tesetup") :=
  ⟨denom_at_near_singular,
    c5_no_singularity_error setup setup.beta 100000 denom_at_near_singular⟩

/- Claim C7: the finite-difference derivative estimate. -/

lemma sqrt_machineEps : Real.sqrt machineEps = 1 / 2 ^ 26 := by
  rw [machineEps, show (1:ℝ) / 2 ^ 52 = (1 / 2 ^ 26) ^ 2 by norm_num,
    Real.sqrt_sq (by norm_num)]

/-- C7 (counterexample): take the residual `F = id` and the guess
`paramGuess = 0`, so the claimed central-difference estimate with
`h = sqrt(machine epsilon)·max(1,|paramGuess|)` equals 1; feeding
`central_differences` the canonical stencil `y k = F(paramGuess + (k−i)·h)`
(at `i = 1`) returns 0 instead: the code divides a *second* difference by
`eps²` and never scales by `max(1, |paramGuess|)`. -/
theorem c7_counterexample :
    central_differences 0 (fun k => ((k : ℝ) - 1) * (1 / 2 ^ 26)) 1 = 0 ∧
      ((0 + Real.sqrt machineEps * max 1 |(0:ℝ)|) -
          (0 - Real.sqrt machineEps * max 1 |(0:ℝ)|)) /
        (2 * (Real.sqrt machineEps * max 1 |(0:ℝ)|)) = 1 ∧
      (0 : ℝ) ≠ 1 := by
  refine ⟨?_, ?_, by norm_num⟩
  · rw [central_differences, sqrt_machineEps]
    norm_num
  · rw [sqrt_machineEps]
    norm_num

/-- C7 (amended): `central_differences` returns the second difference of
three adjacent samples divided by the machine epsilon,
`(y[i+1] − 2y[i] + y[i−1])·2⁵²`; it does not depend on the guess `x` and
applies no `max(1,|x|)` scaling — it is not the first-derivative central
difference `(F(x+h) − F(x−h))/(2h)`. -/
theorem c7_second_difference (x : ℝ) (y : ℤ → ℝ) (i : ℤ) :
    central_differences x y i = (y (i + 1) - 2 * y i + y (i - 1)) * 2 ^ 52 := by
  rw [central_differences, sqrt_machineEps]
  norm_num
  ring

/- Claim C8: the energy invariant along integrations. -/

/-- C8 (counterexample): the integrator's step does not preserve the
energy bound `Vr² + Vθ² < 2/(γ−1) + 1`: from the in-bound state `(2, 0)`
(4 < 6 for γ = 1.4), one step of size 1 under the field constantly
`(3, 0)` lands on `(5, 0)`, and 25 ≥ 6. -/
theorem c8_counterexample :
    ((2 : ℝ) ^ 2 + (0 : ℝ) ^ 2 < 2 / (setup.gamma - 1) + 1) ∧
      ¬ ((2 + (rk4 (fun _ _ => ((3 : ℝ), (0 : ℝ))) 1 0 ((2 : ℝ), (0 : ℝ))).1) ^ 2 +
          (0 + (rk4 (fun _ _ => ((3 : ℝ), (0 : ℝ))) 1 0 ((2 : ℝ), (0 : ℝ))).2) ^ 2 <
          2 / (setup.gamma - 1) + 1) := by
  have hrk : rk4 (fun _ _ => ((3 : ℝ), (0 : ℝ))) 1 0 ((2 : ℝ), (0 : ℝ)) = ((3 : ℝ), (0 : ℝ)) := by
    rw [rk4]
    norm_num [Prod.smul_mk, Prod.mk_add_mk, smul_eq_mul]
  rw [hrk, setup_gamma]
  norm_num

/-- C8 (amended): what does hold of the code: every initial state the
Taylor-Maccoll set-up derives from a pair `(delta, m2)` satisfies the
energy bound `Vr² + Vθ² < 2/(γ−1) + 1` (indeed `Vr² + Vθ² ≤ 1`); the
single-step `rk4` routine itself enforces no such invariant, produces no
trace, and does not preserve the bound in general. -/
theorem c8_initial_state_energy_bound (cfg : InitialConditions) (delta m2 : ℝ)
    (hg : 1 < cfg.gamma) :
    TaylorMaccoll.v_nondim_r cfg delta m2 ^ 2 + TaylorMaccoll.v_nondim_theta cfg delta m2 ^ 2 <
      2 / (cfg.gamma - 1) + 1 := by
  rw [vr_sq_add_vtheta_sq]
  have h1 := v_nondim_sq_le_one cfg m2 hg
  have h2 : (0:ℝ) < 2 / (cfg.gamma - 1) := by
    apply div_pos (by norm_num)
    linarith
  linarith

theorem c8_witness :
    1 < setup.gamma ∧
      TaylorMaccoll.v_nondim_r setup 0 2 ^ 2 + TaylorMaccoll.v_nondim_theta setup 0 2 ^ 2 <
        2 / (setup.gamma - 1) + 1 :=
  ⟨by rw [setup_gamma]; norm_num,
    c8_initial_state_energy_bound setup 0 2 (by rw [setup_gamma]; norm_num)⟩

/- Claim C9: purity and hidden state. -/

/-- C9 (counterexample): the shock routine takes no arguments, yet under
two module-level stores whose hidden `setup` objects differ (shock angle
30° versus 45°) it produces different results — it reads hidden global
state — and it overwrites the shared module-level buffer `ob` (the store
after the call differs from the store before): it is not purely
functional over explicit inputs. -/
theorem c9_counterexample :
    (oblique_shock_wave_global ⟨setup, (0, 0)⟩).2 ≠
        (oblique_shock_wave_global ⟨InitialConditions.make 3 45 1.4, (0, 0)⟩).2 ∧
      (oblique_shock_wave_global ⟨setup, (0, 0)⟩).1.ob ≠ (0, 0) := by
  have hd45 : ObliqueShock.delta (InitialConditions.make 3 45 1.4) =
      Real.arctan (35 / 153) := by
    have hb : (InitialConditions.make 3 45 1.4).beta = Real.pi / 4 := by
      show (45 : ℝ) * Real.pi / 180 = Real.pi / 4
      ring
    rw [ObliqueShock.delta, ObliqueShock.mn1, hb]
    show Real.arctan (2 * 1 / Real.tan (Real.pi / 4) *
        (((3:ℝ) * Real.sin (Real.pi / 4)) ^ 2 - 1) /
        ((3:ℝ) ^ 2 * ((1.4:ℝ) + Real.cos (2 * (Real.pi / 4)) + 2))) = _
    rw [Real.tan_pi_div_four, Real.sin_pi_div_four,
      show 2 * (Real.pi / 4) = Real.pi / 2 by ring, Real.cos_pi_div_two]
    rw [mul_pow, div_pow, Real.sq_sqrt (by norm_num : (0:ℝ) ≤ 2)]
    norm_num
  have hd45_gt : (0.2 : ℝ) < ObliqueShock.delta (InitialConditions.make 3 45 1.4) := by
    rw [hd45]
    have h0 : (0:ℝ) ≤ 35 / 153 := by norm_num
    have := sub_cube_le_arctan h0
    nlinarith [this]
  constructor
  · intro h
    have h1 : ObliqueShock.delta setup = ObliqueShock.delta (InitialConditions.make 3 45 1.4) :=
      congrArg Prod.fst h
    linarith [delta_setup_lt, hd45_gt, h1.ge, h1.le]
  · intro h
    have h1 : ObliqueShock.delta setup = 0 := congrArg Prod.fst h
    linarith [delta_setup_gt]

/-- C9 (amended): the routine's behaviour as a state transformer: its
result is exactly the pair `(delta, m2)` determined by the hidden global
`setup` it reads (it takes no explicit inputs), and it mutates the
shared module-level buffer `ob`, storing that pair there.  (As executed
the routine raises a NameError before the stores; this is the behaviour
of its defining formulas.) -/
theorem c9_reads_and_writes_module_state (g : Globals) :
    (oblique_shock_wave_global g).1.ob = (oblique_shock_wave_global g).2 ∧
      (oblique_shock_wave_global g).2 =
        (ObliqueShock.delta g.setup, ObliqueShock.m2 g.setup) :=
  ⟨rfl, rfl⟩

/- Claim C10: the Taylor-Maccoll evaluator never returns. -/

/-- C10 (counterexample): every call of the evaluator does fail, but not
with an out-of-bounds index error: the first failure, under Python's
evaluation order, is the undefined-name lookup `tem2_tesetup` inside the
`oblique_shock_wave()` call the evaluator makes first (and the next
would be the undefined global `gamma`, still before the out-of-bounds
store into `tm[2]`). -/
theorem c10_counterexample :
    taylorMaccollRun setup 0.1 2 = Except.error (PyErr.nameError "tem2_tesetup") ∧
      PyErr.nameError "tem2_tesetup" ≠ PyErr.indexError :=
  ⟨rfl, fun h => PyErr.noConfusion h⟩

/-- C10 (amended): every call of `taylor_maccoll` fails with an
undefined-name error raised before the out-of-bounds assignment
`tm[2] = …` is reached, and never returns a derivative vector. -/
theorem c10_never_returns (cfg : InitialConditions) (delta m2 : ℝ) :
    taylorMaccollRun cfg delta m2 = Except.error (PyErr.nameError "tem2_tesetup") :=
  taylorMaccollRun_eq cfg delta m2

/- Claim C3: compressive deflection and Mach decrease, for every valid
configuration. -/

/-- Nonnegative arguments have nonnegative arctangents. -/
lemma arctan_nonneg_of_nonneg {x : ℝ} (hx : 0 ≤ x) : 0 ≤ Real.arctan x := by
  have h := Real.arctan_strictMono.monotone hx
  rwa [Real.arctan_zero] at h

/-- The polynomial heart of the post-shock Mach inequality: with
`N = machNormal1² > 1`, `C = cos²β ∈ (0,1)` and `γ > 1`,
`(N(γ+1+2C))² + 4C(1−C)(N−1)² ≤ N·(N(γ+1+2C) − 2C(N−1))²`. -/
lemma key_poly {N C g : ℝ} (hN : 1 < N) (hC0 : 0 < C) (hC1 : C < 1) (hg : 1 < g) :
    (N * (g + 1 + 2 * C)) ^ 2 + 4 * C * (1 - C) * (N - 1) ^ 2 ≤
      N * (N * (g + 1 + 2 * C) - 2 * C * (N - 1)) ^ 2 := by
  have hu : (0:ℝ) < N - 1 := by linarith
  have hfact : N * (N * (g + 1 + 2 * C) - 2 * C * (N - 1)) ^ 2 -
      ((N * (g + 1 + 2 * C)) ^ 2 + 4 * C * (1 - C) * (N - 1) ^ 2) =
      (N - 1) * (N ^ 2 * ((g + 1) ^ 2 - 4 * C ^ 2) +
        4 * C * (N - 1) * (C * (N + 1) - 1)) := by
    ring
  have hgs : (4:ℝ) ≤ (g + 1) ^ 2 := by nlinarith
  have hbr : 0 ≤ N ^ 2 * ((g + 1) ^ 2 - 4 * C ^ 2) + 4 * C * (N - 1) * (C * (N + 1) - 1) := by
    rcases le_or_lt 1 (C * (N + 1)) with hcase | hcase
    · have h1 : 0 ≤ (g + 1) ^ 2 - 4 * C ^ 2 := by nlinarith
      have h2 : 0 ≤ 4 * C * (N - 1) * (C * (N + 1) - 1) :=
        mul_nonneg (mul_nonneg (by linarith) (by linarith)) (by linarith)
      nlinarith [sq_nonneg N, h1, h2]
    · have hid : N ^ 2 * (1 - C ^ 2) - C * (N - 1) * (1 - C * (N + 1)) =
          N * (N - C) + C * (1 - C) := by ring
      have h5 : 0 ≤ N * (N - C) + C * (1 - C) := by nlinarith
      have h4 : 0 ≤ N ^ 2 * ((g + 1) ^ 2 - 4) :=
        mul_nonneg (sq_nonneg N) (by linarith)
      nlinarith [hid, h5, h4]
  nlinarith [hfact, mul_nonneg (le_of_lt hu) hbr]

set_option maxHeartbeats 1000000 in
/-- The post-shock Mach inequality in terms of `s = sin β`, `c = cos β`:
if `A` satisfies the denominator-cleared equation of the code's
arctangent argument and `mn2v` is the code's normal post-shock Mach
number, then `mn2v / sin(β − arctan A) < M`, with `sin(β − arctan A)`
already expanded through the subtraction formula. -/
lemma shock_core {M g s c A mn2v : ℝ} (hM : 1 < M) (hg : 1 < g)
    (hs0 : 0 < s) (hc0 : 0 < c) (hpyth : s ^ 2 + c ^ 2 = 1) (hns : 1 < M * s)
    (hA : A * ((M * s) ^ 2 * (g + 1 + 2 * c ^ 2)) = 2 * c * s * ((M * s) ^ 2 - 1))
    (hmn2 : mn2v = Real.sqrt ((1.0 + 0.5 * (g - 1) * (M * s) ^ 2) /
      (g * (M * s) ^ 2 - 0.5 * (g - 1)))) :
    mn2v / (s * Real.cos (Real.arctan A) - c * Real.sin (Real.arctan A)) < M := by
  have hM0 : (0:ℝ) < M := by linarith
  have hN1 : (1:ℝ) < (M * s) ^ 2 := by nlinarith
  have hc2lt1 : c ^ 2 < 1 := by nlinarith
  have hgp : (0:ℝ) < g + 1 + 2 * c ^ 2 := by nlinarith
  have hK0 : (0:ℝ) < (M * s) ^ 2 * (g + 1 + 2 * c ^ 2) := by nlinarith
  have hscA2 : (s - c * A) * ((M * s) ^ 2 * (g + 1 + 2 * c ^ 2)) =
      s * ((M * s) ^ 2 * (g + 1) + 2 * c ^ 2) := by
    linear_combination (-c) * hA
  have hpos2 : (0:ℝ) < s * ((M * s) ^ 2 * (g + 1) + 2 * c ^ 2) := by
    have h1 : (0:ℝ) < (M * s) ^ 2 * (g + 1) := mul_pos (by linarith) (by linarith)
    have h2 : (0:ℝ) ≤ 2 * c ^ 2 := by positivity
    exact mul_pos hs0 (by linarith)
  have hscA : (0:ℝ) < s - c * A := by nlinarith [hscA2, hpos2, hK0]
  have hdenpos : (0:ℝ) < g * (M * s) ^ 2 - 0.5 * (g - 1) := by nlinarith
  have hnumpos : (0:ℝ) < 1.0 + 0.5 * (g - 1) * (M * s) ^ 2 := by nlinarith
  have hmn2v0 : 0 ≤ mn2v := by rw [hmn2]; exact Real.sqrt_nonneg _
  have hmn2sq : mn2v ^ 2 = (1.0 + 0.5 * (g - 1) * (M * s) ^ 2) /
      (g * (M * s) ^ 2 - 0.5 * (g - 1)) := by
    rw [hmn2]
    exact Real.sq_sqrt (le_of_lt (div_pos hnumpos hdenpos))
  have hmn2lt1 : mn2v ^ 2 < 1 := by
    rw [hmn2sq, div_lt_one hdenpos]
    nlinarith
  have hkp := key_poly (N := (M * s) ^ 2) (C := c ^ 2) hN1 (by positivity) hc2lt1 hg
  have hstep2 : ((M * s) ^ 2 * (g + 1 + 2 * c ^ 2)) ^ 2 +
      4 * c ^ 2 * s ^ 2 * ((M * s) ^ 2 - 1) ^ 2 ≤
      (M * s) ^ 2 * ((M * s) ^ 2 * (g + 1) + 2 * c ^ 2) ^ 2 := by
    have e1 : 4 * c ^ 2 * s ^ 2 * ((M * s) ^ 2 - 1) ^ 2 =
        4 * c ^ 2 * (1 - c ^ 2) * ((M * s) ^ 2 - 1) ^ 2 := by
      linear_combination (4 * c ^ 2 * ((M * s) ^ 2 - 1) ^ 2) * hpyth
    have e2 : (M * s) ^ 2 * ((M * s) ^ 2 * (g + 1) + 2 * c ^ 2) ^ 2 =
        (M * s) ^ 2 * ((M * s) ^ 2 * (g + 1 + 2 * c ^ 2) -
          2 * c ^ 2 * ((M * s) ^ 2 - 1)) ^ 2 := by
      ring
    rw [e1, e2]
    exact hkp
  have hXeq : mn2v ^ 2 * (1 + A ^ 2) * ((M * s) ^ 2 * (g + 1 + 2 * c ^ 2)) ^ 2 =
      mn2v ^ 2 * (((M * s) ^ 2 * (g + 1 + 2 * c ^ 2)) ^ 2 +
        4 * c ^ 2 * s ^ 2 * ((M * s) ^ 2 - 1) ^ 2) := by
    linear_combination (mn2v ^ 2 * (A * ((M * s) ^ 2 * (g + 1 + 2 * c ^ 2)) +
      2 * c * s * ((M * s) ^ 2 - 1))) * hA
  have hYeq : M ^ 2 * (s - c * A) ^ 2 * ((M * s) ^ 2 * (g + 1 + 2 * c ^ 2)) ^ 2 =
      (M * s) ^ 2 * ((M * s) ^ 2 * (g + 1) + 2 * c ^ 2) ^ 2 := by
    linear_combination (M ^ 2 * ((s - c * A) * ((M * s) ^ 2 * (g + 1 + 2 * c ^ 2)) +
      s * ((M * s) ^ 2 * (g + 1) + 2 * c ^ 2))) * hscA2
  have hX0 : (0:ℝ) < ((M * s) ^ 2 * (g + 1 + 2 * c ^ 2)) ^ 2 +
      4 * c ^ 2 * s ^ 2 * ((M * s) ^ 2 - 1) ^ 2 := by
    have h1 := pow_pos hK0 2
    have h2 : (0:ℝ) ≤ 4 * c ^ 2 * s ^ 2 * ((M * s) ^ 2 - 1) ^ 2 := by positivity
    linarith
  have hchain : mn2v ^ 2 * (1 + A ^ 2) * ((M * s) ^ 2 * (g + 1 + 2 * c ^ 2)) ^ 2 <
      M ^ 2 * (s - c * A) ^ 2 * ((M * s) ^ 2 * (g + 1 + 2 * c ^ 2)) ^ 2 := by
    rw [hXeq, hYeq]
    have h1 : mn2v ^ 2 * (((M * s) ^ 2 * (g + 1 + 2 * c ^ 2)) ^ 2 +
        4 * c ^ 2 * s ^ 2 * ((M * s) ^ 2 - 1) ^ 2) <
        ((M * s) ^ 2 * (g + 1 + 2 * c ^ 2)) ^ 2 +
        4 * c ^ 2 * s ^ 2 * ((M * s) ^ 2 - 1) ^ 2 := by
      have h2 : (0:ℝ) < (1 - mn2v ^ 2) * (((M * s) ^ 2 * (g + 1 + 2 * c ^ 2)) ^ 2 +
          4 * c ^ 2 * s ^ 2 * ((M * s) ^ 2 - 1) ^ 2) :=
        mul_pos (by linarith) hX0
      nlinarith [h2]
    linarith [h1, hstep2]
  have hKsqpos : (0:ℝ) < ((M * s) ^ 2 * (g + 1 + 2 * c ^ 2)) ^ 2 := pow_pos hK0 2
  have hfinal_sq : mn2v ^ 2 * (1 + A ^ 2) < M ^ 2 * (s - c * A) ^ 2 :=
    (mul_lt_mul_right hKsqpos).mp hchain
  have hsq1A : (0:ℝ) ≤ 1 + A ^ 2 := by positivity
  have hmain : mn2v * Real.sqrt (1 + A ^ 2) < M * (s - c * A) := by
    have hR0 : (0:ℝ) ≤ M * (s - c * A) := le_of_lt (mul_pos hM0 hscA)
    apply lt_of_pow_lt_pow_left 2 hR0
    rw [mul_pow, mul_pow, Real.sq_sqrt hsq1A]
    exact hfinal_sq
  rw [Real.cos_arctan, Real.sin_arctan]
  have hden_rw : s * (1 / Real.sqrt (1 + A ^ 2)) - c * (A / Real.sqrt (1 + A ^ 2)) =
      (s - c * A) / Real.sqrt (1 + A ^ 2) := by ring
  rw [hden_rw, div_div_eq_mul_div, div_lt_iff hscA]
  exact hmain

set_option maxHeartbeats 1000000 in
/-- C3: for every supersonic free stream (`freeStreamMach > 1`),
specific-heat ratio `γ > 1`, and shock angle strictly between the Mach
angle `asin(1/freeStreamMach)` and `π/2`, the solver's formulas give a
nonnegative flow deflection angle and a post-shock Mach number strictly
below the free-stream Mach number. -/
theorem c3_compressive_and_decelerating (cfg : InitialConditions)
    (hM : 1 < cfg.m1) (hg : 1 < cfg.gamma)
    (hb1 : Real.arcsin (1 / cfg.m1) < cfg.beta) (hb2 : cfg.beta < Real.pi / 2) :
    0 ≤ ObliqueShock.delta cfg ∧ ObliqueShock.m2 cfg < cfg.m1 := by
  have hM0 : (0:ℝ) < cfg.m1 := by linarith
  have hπ : (0:ℝ) < Real.pi := Real.pi_pos
  have hinvpos : (0:ℝ) < 1 / cfg.m1 := by positivity
  have hβpos : 0 < cfg.beta := lt_trans (Real.arcsin_pos.mpr hinvpos) hb1
  have hs0 : 0 < Real.sin cfg.beta :=
    Real.sin_pos_of_pos_of_lt_pi hβpos (by linarith)
  have hc0 : 0 < Real.cos cfg.beta := Real.cos_pos_of_mem_Ioo ⟨by linarith, hb2⟩
  have hinv1 : 1 / cfg.m1 ≤ 1 := by rw [div_le_one hM0]; linarith
  have hsM : 1 / cfg.m1 < Real.sin cfg.beta := by
    have h1 : Real.sin (Real.arcsin (1 / cfg.m1)) = 1 / cfg.m1 :=
      Real.sin_arcsin (by linarith) hinv1
    have h2 : Real.sin (Real.arcsin (1 / cfg.m1)) < Real.sin cfg.beta :=
      Real.strictMonoOn_sin (Real.arcsin_mem_Icc (1 / cfg.m1))
        ⟨by linarith, le_of_lt hb2⟩ hb1
    linarith
  have hns : 1 < cfg.m1 * Real.sin cfg.beta := by
    have h := (div_lt_iff hM0).mp hsM
    rw [mul_comm] at h
    exact h
  have hpyth : Real.sin cfg.beta ^ 2 + Real.cos cfg.beta ^ 2 = 1 :=
    Real.sin_sq_add_cos_sq cfg.beta
  have hc2 : Real.cos (2 * cfg.beta) = 1 - 2 * Real.sin cfg.beta ^ 2 := by
    rw [Real.cos_two_mul]
    linarith [hpyth]
  have hD : cfg.gamma + (1 - 2 * Real.sin cfg.beta ^ 2) + 2 =
      cfg.gamma + 1 + 2 * Real.cos cfg.beta ^ 2 := by
    linarith [hpyth]
  have hAeq : (2 * 1 / (Real.sin cfg.beta / Real.cos cfg.beta) *
      ((cfg.m1 * Real.sin cfg.beta) ^ 2 - 1) /
      (cfg.m1 ^ 2 * (cfg.gamma + (1 - 2 * Real.sin cfg.beta ^ 2) + 2))) *
      ((cfg.m1 * Real.sin cfg.beta) ^ 2 * (cfg.gamma + 1 + 2 * Real.cos cfg.beta ^ 2)) =
      2 * Real.cos cfg.beta * Real.sin cfg.beta * ((cfg.m1 * Real.sin cfg.beta) ^ 2 - 1) := by
    rw [hD]
    have hsne : Real.sin cfg.beta ≠ 0 := ne_of_gt hs0
    have hcne : Real.cos cfg.beta ≠ 0 := ne_of_gt hc0
    have hMne : cfg.m1 ≠ 0 := ne_of_gt hM0
    have hEne : cfg.gamma + 1 + 2 * Real.cos cfg.beta ^ 2 ≠ 0 :=
      ne_of_gt (by nlinarith [sq_nonneg (Real.cos cfg.beta)])
    field_simp
    ring
  constructor
  · rw [ObliqueShock.delta, ObliqueShock.mn1, Real.tan_eq_sin_div_cos, hc2]
    apply arctan_nonneg_of_nonneg
    apply div_nonneg
    · apply mul_nonneg
      · exact div_nonneg (by norm_num) (le_of_lt (div_pos hs0 hc0))
      · nlinarith [hns]
    · apply mul_nonneg (sq_nonneg _)
      nlinarith [hpyth, sq_nonneg (Real.cos cfg.beta)]
  · rw [ObliqueShock.m2, ObliqueShock.mn2, ObliqueShock.delta, ObliqueShock.mn1,
      Real.tan_eq_sin_div_cos, hc2, Real.sin_sub]
    exact shock_core hM hg hs0 hc0 hpyth hns hAeq rfl

theorem c3_witness :
    (1 < setup.m1 ∧ 1 < setup.gamma ∧ Real.arcsin (1 / setup.m1) < setup.beta ∧
        setup.beta < Real.pi / 2) ∧
      0 ≤ ObliqueShock.delta setup ∧ ObliqueShock.m2 setup < setup.m1 := by
  have h1 : (1:ℝ) < setup.m1 := by rw [setup_m1]; norm_num
  have h2 : (1:ℝ) < setup.gamma := by rw [setup_gamma]; norm_num
  have h3 : Real.arcsin (1 / setup.m1) < setup.beta := by
    rw [setup_m1, setup_beta]
    have hpi := Real.pi_pos
    have hs : Real.arcsin (1 / 2 : ℝ) = Real.pi / 6 := by
      rw [show (1 / 2 : ℝ) = Real.sin (Real.pi / 6) from (Real.sin_pi_div_six).symm]
      exact Real.arcsin_sin (by linarith) (by linarith)
    have hlt : Real.arcsin ((1:ℝ) / 3) < Real.arcsin (1 / 2) :=
      Real.strictMonoOn_arcsin (by constructor <;> norm_num)
        (by constructor <;> norm_num) (by norm_num)
    rw [hs] at hlt
    exact hlt
  have h4 : setup.beta < Real.pi / 2 := by
    rw [setup_beta]
    linarith [Real.pi_pos]
  exact ⟨⟨h1, h2, h3, h4⟩, c3_compressive_and_decelerating setup h1 h2 h3 h4⟩
